import Mathlib

/-!
Verification of the MNIST on-device-training orchestration notebook
(`on_device_training/desktop/python/mnist.ipynb`).

The notebook is glue code sequencing calls into an opaque training runtime:
a training loop (`train`), an evaluation loop (`test`), an argmax helper
(`get_pred`) and a one-shot inference export/run stage.  The runtime
collaborator (module forward/backward, optimizer step, inference session) is
external to the repository; it is represented here by a structure of opaque
functions (`Runtime`), following the capability contract the notebook relies
on.  The loops themselves are translated directly from the notebook cells,
and emit an explicit event trace so that call-ordering properties can be
stated.
-/

/-- A batch drawn from a data loader: a pair of fixed-shape numeric arrays
(features as a list of rows, labels).  Numeric values are modelled as
rationals. -/
structure Batch where
  data : List (List ℚ)
  target : List ℤ
deriving DecidableEq

/-- The module mode, toggled by `model.train()` / `model.eval()`. -/
inductive Mode
  | train
  | eval
deriving DecidableEq

/-- Modelled from the spec: the opaque training-runtime collaborator
(`module.run`, gradient accumulation, `optimizer.step`, and the forward
network used by the exported inference graph).  The checkpoint parameter
state is abstracted as an integer, the gradient buffer likewise; the loss,
logits and update functions are arbitrary. -/
structure Runtime where
  lossFn : ℤ → Batch → ℚ
  logitsFn : ℤ → Batch → List (List ℚ)
  gradFn : ℤ → ℤ → Batch → ℤ
  stepFn : ℤ → ℤ → ℤ
  inferFn : ℤ → List (List ℚ) → List (List ℚ)

/-- The mutable state held by the `Module`/`CheckpointState`/`Optimizer`
triple: checkpoint parameters, accumulated gradients, and the train/eval
mode flag. -/
structure ModuleState where
  params : ℤ
  grads : ℤ
  mode : Mode
deriving DecidableEq

/-- `model(forward_inputs)`: a forward pass returning `(loss, logits)`;
in train mode it additionally accumulates gradients into the gradient
buffer, in eval mode it leaves the state untouched. -/
def moduleCall (rt : Runtime) (st : ModuleState) (b : Batch) :
    (ℚ × List (List ℚ)) × ModuleState :=
  match st.mode with
  | Mode.train =>
      ((rt.lossFn st.params b, rt.logitsFn st.params b),
        { st with grads := rt.gradFn st.grads st.params b })
  | Mode.eval =>
      ((rt.lossFn st.params b, rt.logitsFn st.params b), st)

/-- `optimizer.step()`: applies the accumulated gradients to the checkpoint
parameters. -/
def optimizerStep (rt : Runtime) (st : ModuleState) : ModuleState :=
  { st with params := rt.stepFn st.params st.grads }

/-- `model.reset_grad()`: clears the gradient buffer. -/
def resetGradCall (st : ModuleState) : ModuleState :=
  { st with grads := 0 }

/-- The observable calls the loop drivers make, tagged with the batch index. -/
inductive Event
  | forward (i : ℕ)
  | optStep (i : ℕ)
  | resetGrad (i : ℕ)
  | metricAdd (i : ℕ)
  | metricCompute
deriving DecidableEq

/-- Python's `/` on `sum(losses) / len(losses)`: raises `ZeroDivisionError`
(modelled as `none`) when the denominator is zero. -/
def pydiv (a b : ℚ) : Option ℚ :=
  if b = 0 then none else some (a / b)

/-- `np.argmax` along one row: single left-to-right scan keeping the first
index whose value is strictly greater than the best so far. -/
def argmaxAux : List ℚ → ℕ → ℕ × ℚ → ℕ × ℚ
  | [], _, best => best
  | x :: xs, i, best =>
      argmaxAux xs (i + 1) (if best.2 < x then (i, x) else best)

/-- `np.argmax` of one row (first index of the maximum value). -/
def np_argmax_row (xs : List ℚ) : ℕ :=
  match xs with
  | [] => 0
  | x :: tl => (argmaxAux tl 1 (0, x)).1

/-- `get_pred(logits)`: `np.argmax(logits, axis=1)` — row-wise argmax of a
2-D array, a pure function of its input. -/
def get_pred (logits : List (List ℚ)) : List ℕ :=
  logits.map np_argmax_row

/-- The global environment the notebook loops close over: the two data
loaders built in the data-preparation cell. -/
structure Env where
  train_loader : List Batch
  test_loader : List Batch

/-- Result of one `train(epoch)` call. -/
structure TrainResult where
  state : ModuleState
  losses : List ℚ
  trace : List Event
  report : Option ℚ

/-- A Python exception observable in an epoch report. -/
inductive PyError
  | valueError
  | zeroDivisionError
deriving DecidableEq

/-- Result of one `test(epoch)` call.  `metrics` is the value of the
statement `metrics = metric.compute()`; `report` is the value of the
subexpression `sum(losses)/len(losses)` of the print statement; `outcome`
is the sequenced result of running those two statements in program order
(first `metric.compute()`, then the mean-loss division), ending in the
first exception raised or in the reported (mean loss, accuracy) pair. -/
structure TestResult where
  state : ModuleState
  losses : List ℚ
  pairs : List (ℕ × ℤ)
  trace : List Event
  metrics : Except PyError ℚ
  report : Option ℚ
  outcome : Except PyError (ℚ × ℚ)

/-- The body of the training loop: for each batch, forward/backward, then
`optimizer.step()`, then `model.reset_grad()`, then append the loss. -/
def trainLoop (rt : Runtime) : ModuleState → ℕ → List Batch →
    ModuleState × List ℚ × List Event
  | st, _, [] => (st, [], [])
  | st, i, b :: bs =>
      let r := moduleCall rt st b
      let st1 := optimizerStep rt r.2
      let st2 := resetGradCall st1
      let rest := trainLoop rt st2 (i + 1) bs
      (rest.1, r.1.1 :: rest.2.1,
        Event.forward i :: Event.optStep i :: Event.resetGrad i :: rest.2.2)

/-- `train(epoch)`: sets train mode, runs the loop over `train_loader`
starting from an empty loss list, and reports `sum(losses)/len(losses)`. -/
def train (rt : Runtime) (env : Env) (st : ModuleState) : TrainResult :=
  let st0 : ModuleState := { st with mode := Mode.train }
  let r := trainLoop rt st0 0 env.train_loader
  { state := r.1, losses := r.2.1, trace := r.2.2,
    report := pydiv r.2.1.sum r.2.1.length }

/-- The body of the test loop: for each batch, a forward-only call, then
`metric.add_batch(references=target, predictions=get_pred(logits))`, then
append the loss. -/
def testLoop (rt : Runtime) : ModuleState → ℕ → List Batch →
    ModuleState × List ℚ × List (ℕ × ℤ) × List Event
  | st, _, [] => (st, [], [], [])
  | st, i, b :: bs =>
      let r := moduleCall rt st b
      let preds := get_pred r.1.2
      let rest := testLoop rt r.2 (i + 1) bs
      (rest.1, r.1.1 :: rest.2.1, preds.zip b.target ++ rest.2.2.1,
        Event.forward i :: Event.metricAdd i :: rest.2.2.2)

/-- Modelled from the spec: `metric.compute()` of the external metric
aggregator (the `evaluate` library's accuracy metric), "finalized once per
epoch into a single accuracy value".  Per the `evaluate` library, `compute()`
raises `ValueError` when `add`/`add_batch` was never called
(`addCalls = 0`); otherwise it returns the fraction of prediction /
reference pairs that agree.  (Every batch yielded by the DataLoader is
nonempty, so after a nonempty epoch at least one pair is present.) -/
def accuracyCompute (addCalls : ℕ) (pairs : List (ℕ × ℤ)) :
    Except PyError ℚ :=
  if addCalls = 0 then Except.error PyError.valueError
  else Except.ok ((pairs.countP (fun p => (p.1 : ℤ) == p.2) : ℚ) /
    (pairs.length : ℚ))

/-- `test(epoch)`: sets eval mode, loads a fresh accuracy metric, runs the
loop over `train_loader` (the notebook iterates `train_loader` here, not
`test_loader`, and calls `metric.add_batch` once per batch), then executes
`metrics = metric.compute()` — which raises `ValueError` if no batch was
ever added — and only afterwards evaluates `sum(losses)/len(losses)` inside
the print statement, which raises `ZeroDivisionError` on an empty loss
list.  `outcome` records this statement sequencing. -/
def test (rt : Runtime) (env : Env) (st : ModuleState) : TestResult :=
  let st0 : ModuleState := { st with mode := Mode.eval }
  let r := testLoop rt st0 0 env.train_loader
  let metrics := accuracyCompute env.train_loader.length r.2.2.1
  { state := r.1, losses := r.2.1, pairs := r.2.2.1,
    trace := r.2.2.2 ++ [Event.metricCompute],
    metrics := metrics,
    report := pydiv r.2.1.sum r.2.1.length,
    outcome :=
      match metrics with
      | Except.error e => Except.error e
      | Except.ok acc =>
          match pydiv r.2.1.sum r.2.1.length with
          | none => Except.error PyError.zeroDivisionError
          | some m => Except.ok (m, acc) }

/-- The artifact written by
`model.export_model_for_inferencing("data/inference_model.onnx", ["output-0"])`:
a deployment graph declaring the requested output names, baked from the
current checkpoint parameters. -/
structure InferenceGraph where
  outputNames : List String
  params : ℤ
deriving DecidableEq

/-- `model.export_model_for_inferencing(path, graph_output_names)`. -/
def export_model_for_inferencing (st : ModuleState) (names : List String) :
    InferenceGraph :=
  { outputNames := names, params := st.params }

/-- `InferenceSession(path, ...)`: an inference engine handle constructed
from the exported artifact. -/
structure InferenceSession where
  graph : InferenceGraph
deriving DecidableEq

/-- Modelled from the spec: `session.run(output_names, feeds)` of the
external inference engine.  Running the graph "must accept exactly the
declared output name(s) and reject unknown ones with a lookup error";
each accepted name yields the single forward-pass output of the exported
network on the input tensor. -/
def InferenceSession.run (rt : Runtime) (s : InferenceSession)
    (requested : List String) (input : List (List ℚ)) :
    Except String (List (List (List ℚ))) :=
  if requested.all (fun n => s.graph.outputNames.contains n) then
    Except.ok (requested.map (fun _ => rt.inferFn s.graph.params input))
  else
    Except.error "InvalidArgument: invalid output name"

/-- `next(iter(test_loader))[0][0]`: the first row of the first batch of the
held-out test loader (`none` models the `StopIteration`/index error on an
empty loader or empty batch). -/
def inferenceExample (env : Env) : Option (List ℚ) :=
  match env.test_loader with
  | [] => none
  | b :: _ => b.data.head?

/-- The whole inference cell: export the graph naming `"output-0"`, build a
session, take the example from `test_loader`, reshape it to one row of 784
values, run the session requesting the session's own first declared output
name, and apply `get_pred` to the first returned tensor. -/
def inferenceStage (rt : Runtime) (st : ModuleState) (env : Env) :
    Option (List ℕ) :=
  let g := export_model_for_inferencing st ["output-0"]
  let session : InferenceSession := { graph := g }
  match inferenceExample env with
  | none => none
  | some row =>
      let output_name := (session.graph.outputNames.headD "")
      match InferenceSession.run rt session [output_name] [row] with
      | Except.error _ => none
      | Except.ok outs => some (get_pred (outs.headD []))

/-- The three observable runtime-error kinds. -/
inductive RTError
  | artifactLoadFailure
  | shapeMismatch
  | runtimeExecutionFailure
deriving DecidableEq

/-- Modelled from the spec: a fallible view of the runtime collaborator, in
which the forward/backward call and the optimizer step may raise one of the
three error kinds. -/
structure RuntimeF where
  runE : ℤ → Batch → Except RTError (ℚ × List (List ℚ))
  gradFn : ℤ → ℤ → Batch → ℤ
  stepE : ℤ → ℤ → Except RTError ℤ

/-- The training loop over a fallible runtime: a Python exception anywhere
in the body propagates immediately, abandoning the remaining batches and the
loss list.  The event trace records the calls that were actually issued. -/
def trainLoopE (rt : RuntimeF) : ModuleState → ℕ → List Batch →
    Except RTError (ModuleState × List ℚ) × List Event
  | st, _, [] => (Except.ok (st, []), [])
  | st, i, b :: bs =>
      match rt.runE st.params b with
      | Except.error e => (Except.error e, [Event.forward i])
      | Except.ok r =>
          let st1 : ModuleState :=
            { st with grads := rt.gradFn st.grads st.params b }
          match rt.stepE st1.params st1.grads with
          | Except.error e =>
              (Except.error e, [Event.forward i, Event.optStep i])
          | Except.ok p =>
              let st2 : ModuleState := { st1 with params := p, grads := 0 }
              let rest := trainLoopE rt st2 (i + 1) bs
              (rest.1.map (fun q => (q.1, r.1 :: q.2)),
                Event.forward i :: Event.optStep i :: Event.resetGrad i ::
                  rest.2)

/-- The expected call pattern of one training epoch over `n` batches. -/
def trainPattern : ℕ → ℕ → List Event
  | _, 0 => []
  | i, n + 1 =>
      Event.forward i :: Event.optStep i :: Event.resetGrad i ::
        trainPattern (i + 1) n

/-- The expected call pattern of one evaluation epoch over `n` batches. -/
def testPattern : ℕ → ℕ → List Event
  | _, 0 => []
  | i, n + 1 =>
      Event.forward i :: Event.metricAdd i :: testPattern (i + 1) n

/-- Whether an event is an `optimizer.step()` call. -/
def Event.isOptStep : Event → Bool
  | Event.optStep _ => true
  | _ => false

/-- Whether an event is a `model.reset_grad()` call. -/
def Event.isResetGrad : Event → Bool
  | Event.resetGrad _ => true
  | _ => false

/-- Whether an event is a forward call into the module. -/
def Event.isForward : Event → Bool
  | Event.forward _ => true
  | _ => false

/-! ### Concrete instances used by the witnesses -/

/-- A concrete opaque runtime used to witness the theorems. -/
def rtEx : Runtime :=
  { lossFn := fun p b => (p : ℚ) + (b.target.length : ℚ)
    logitsFn := fun p b => [[(p : ℚ), 1], [2, (b.target.length : ℚ)]]
    gradFn := fun g p b => g + p + (b.data.length : ℤ) + 1
    stepFn := fun p g => p + g
    inferFn := fun p input => [[(p : ℚ), (input.length : ℚ) + 1]] }

/-- A concrete batch. -/
def batchEx : Batch := { data := [[1, 2]], target := [3] }

/-- A concrete environment with two training batches and one test batch. -/
def envEx : Env :=
  { train_loader := [batchEx, batchEx], test_loader := [batchEx] }

/-- A concrete environment whose training loader is empty. -/
def envEmptyEx : Env := { train_loader := [], test_loader := [batchEx] }

/-- A concrete starting state in train mode. -/
def stEx : ModuleState := { params := 5, grads := 0, mode := Mode.train }

/-- A concrete state in eval mode. -/
def stEvalEx : ModuleState := { params := 5, grads := 0, mode := Mode.eval }

/-- A concrete fallible runtime whose forward call fails as soon as the
checkpoint parameters reach 1. -/
def rtFEx : RuntimeF :=
  { runE := fun p _ =>
      if 1 ≤ p then Except.error RTError.runtimeExecutionFailure
      else Except.ok ((p : ℚ), [])
    gradFn := fun g _ _ => g + 1
    stepE := fun p g => Except.ok (p + g) }

/-! ### Theorems -/

/-- C3: a forward-only call in eval mode leaves the module state (checkpoint
parameters, gradient buffer, mode) unchanged, and running the same fixed
batch a second time, with no `optimizer.step()` in between, returns exactly
the same loss and output values. -/
theorem evalRunDeterministic (rt : Runtime) (st : ModuleState) (b : Batch)
    (h : st.mode = Mode.eval) :
    (moduleCall rt st b).2 = st ∧
      moduleCall rt (moduleCall rt st b).2 b = moduleCall rt st b := by
  obtain ⟨p, g, m⟩ := st
  cases m with
  | train => exact absurd h (by simp)
  | eval => exact ⟨rfl, rfl⟩

theorem evalRunDeterministic_witness :
    (moduleCall rtEx stEvalEx batchEx).2 = stEvalEx ∧
      moduleCall rtEx (moduleCall rtEx stEvalEx batchEx).2 batchEx =
        moduleCall rtEx stEvalEx batchEx :=
  evalRunDeterministic rtEx stEvalEx batchEx rfl

/-- C10 counterexample: on a concrete empty training loader, the test loop's
outcome is the `ValueError` raised by `metric.compute()` (no `add_batch`
call ever happened), not a division-by-zero error — refuting the claim that
both loops fail with a division-by-zero error when computing the epoch mean
loss. -/
theorem emptyLoaderDivisionByZero_counterexample :
    envEmptyEx.train_loader = [] ∧
      (test rtEx envEmptyEx stEx).outcome = Except.error PyError.valueError ∧
      (test rtEx envEmptyEx stEx).outcome ≠
        Except.error PyError.zeroDivisionError := by
  refine ⟨rfl, rfl, ?_⟩
  intro hc
  rw [show (test rtEx envEmptyEx stEx).outcome =
      Except.error PyError.valueError from rfl] at hc
  simp at hc

/-- C10 (amended): when the data loader yields zero batches, the train loop
fails with a division-by-zero error when computing the epoch mean loss
(modelled as `none`); the test loop also fails without reporting a loss,
but with the `ValueError` that `metric.compute()` raises because
`add_batch` was never called — that exception preempts the mean-loss
division, which would itself have divided by zero had it been reached. -/
theorem emptyLoaderFailure (rt : Runtime) (env : Env)
    (st : ModuleState) (h : env.train_loader = []) :
    (train rt env st).report = none ∧
      (test rt env st).outcome = Except.error PyError.valueError ∧
      (test rt env st).report = none := by
  simp [train, test, trainLoop, testLoop, h, pydiv, accuracyCompute]

theorem emptyLoaderFailure_witness :
    envEmptyEx.train_loader = [] ∧
      ((train rtEx envEmptyEx stEx).report = none ∧
        (test rtEx envEmptyEx stEx).outcome =
          Except.error PyError.valueError ∧
        (test rtEx envEmptyEx stEx).report = none) :=
  ⟨rfl, emptyLoaderFailure rtEx envEmptyEx stEx rfl⟩

/-- One loss is appended per batch in the training loop. -/
theorem trainLoop_losses_length (rt : Runtime) (bs : List Batch) :
    ∀ (st : ModuleState) (i : ℕ),
      (trainLoop rt st i bs).2.1.length = bs.length := by
  induction bs with
  | nil => intro st i; rfl
  | cons b bs ih => intro st i; simp [trainLoop, ih]

/-- One loss is appended per batch in the test loop. -/
theorem testLoop_losses_length (rt : Runtime) (bs : List Batch) :
    ∀ (st : ModuleState) (i : ℕ),
      (testLoop rt st i bs).2.1.length = bs.length := by
  induction bs with
  | nil => intro st i; rfl
  | cons b bs ih => intro st i; simp [testLoop, ih]

/-- C5: the evaluation loop draws its batches from the training loader: both
`train` and `test` are unchanged when the held-out test loader is replaced
by anything else, the test loop processes exactly as many batches as the
training loader holds, and the single post-training inference example (the
only use of the test loader) is unchanged when the training loader is
replaced. -/
theorem testIteratesTrainLoader (rt : Runtime) (env : Env) (st : ModuleState)
    (tl tr : List Batch) :
    test rt { env with test_loader := tl } st = test rt env st ∧
      train rt { env with test_loader := tl } st = train rt env st ∧
      (test rt env st).losses.length = env.train_loader.length ∧
      inferenceExample { env with train_loader := tr } =
        inferenceExample env :=
  ⟨rfl, rfl, testLoop_losses_length rt env.train_loader _ 0, rfl⟩

/-- C2: over the real-number model of the float arithmetic, for an epoch
with at least one batch both loops report exactly
`(sum of the per-batch losses) / (number of per-batch losses)`, and the loss
accumulator holds exactly one entry per batch of this epoch (it starts empty
at each call, regardless of the incoming state). -/
theorem epochMeanLoss (rt : Runtime) (env : Env) (st : ModuleState)
    (h : env.train_loader ≠ []) :
    ((train rt env st).report =
        some ((train rt env st).losses.sum /
          ((train rt env st).losses.length : ℚ)) ∧
      (train rt env st).losses.length = env.train_loader.length) ∧
    ((test rt env st).report =
        some ((test rt env st).losses.sum /
          ((test rt env st).losses.length : ℚ)) ∧
      (test rt env st).losses.length = env.train_loader.length) := by
  have h1 : (train rt env st).losses.length = env.train_loader.length :=
    trainLoop_losses_length rt env.train_loader _ 0
  have h2 : (test rt env st).losses.length = env.train_loader.length :=
    testLoop_losses_length rt env.train_loader _ 0
  have hn : env.train_loader.length ≠ 0 := by
    intro hc
    exact h (List.length_eq_zero.mp hc)
  refine ⟨⟨?_, h1⟩, ⟨?_, h2⟩⟩
  · show pydiv (train rt env st).losses.sum
      ((train rt env st).losses.length : ℚ) = _
    rw [pydiv, if_neg]
    rw [h1]
    exact_mod_cast hn
  · show pydiv (test rt env st).losses.sum
      ((test rt env st).losses.length : ℚ) = _
    rw [pydiv, if_neg]
    rw [h2]
    exact_mod_cast hn

theorem epochMeanLoss_witness :
    envEx.train_loader ≠ [] ∧
      (((train rtEx envEx stEx).report =
          some ((train rtEx envEx stEx).losses.sum /
            ((train rtEx envEx stEx).losses.length : ℚ)) ∧
        (train rtEx envEx stEx).losses.length =
          envEx.train_loader.length) ∧
      ((test rtEx envEx stEx).report =
          some ((test rtEx envEx stEx).losses.sum /
            ((test rtEx envEx stEx).losses.length : ℚ)) ∧
        (test rtEx envEx stEx).losses.length =
          envEx.train_loader.length)) :=
  ⟨by simp [envEx], epochMeanLoss rtEx envEx stEx (by simp [envEx])⟩

/-- The training loop emits exactly the per-batch
forward/optStep/resetGrad pattern. -/
theorem trainLoop_trace (rt : Runtime) (bs : List Batch) :
    ∀ (st : ModuleState) (i : ℕ),
      (trainLoop rt st i bs).2.2 = trainPattern i bs.length := by
  induction bs with
  | nil => intro st i; rfl
  | cons b bs ih => intro st i; simp [trainLoop, trainPattern, ih]

/-- Length of the training call pattern. -/
theorem trainPattern_length (n : ℕ) :
    ∀ i, (trainPattern i n).length = 3 * n := by
  induction n with
  | zero => intro i; rfl
  | succ n ih =>
      intro i
      simp [trainPattern, ih]
      omega

/-- Positions of the three calls of batch `k` in the training pattern. -/
theorem trainPattern_getD (n : ℕ) :
    ∀ i k, k < n →
      (trainPattern i n).getD (3 * k) Event.metricCompute =
          Event.forward (i + k) ∧
        (trainPattern i n).getD (3 * k + 1) Event.metricCompute =
          Event.optStep (i + k) ∧
        (trainPattern i n).getD (3 * k + 2) Event.metricCompute =
          Event.resetGrad (i + k) := by
  induction n with
  | zero => intro i k hk; omega
  | succ n ih =>
      intro i k hk
      cases k with
      | zero => simp [trainPattern]
      | succ k =>
          obtain ⟨h1, h2, h3⟩ := ih (i + 1) k (by omega)
          have hik : i + 1 + k = i + (k + 1) := by omega
          rw [hik] at h1 h2 h3
          have e1 : 3 * (k + 1) = 3 * k + 1 + 1 + 1 := by ring
          have e2 : 3 * (k + 1) + 1 = 3 * k + 1 + 1 + 1 + 1 := by ring
          have e3 : 3 * (k + 1) + 2 = 3 * k + 2 + 1 + 1 + 1 := by ring
          refine ⟨?_, ?_, ?_⟩
          · rw [e1]
            simp only [trainPattern, List.getD_cons_succ]
            exact h1
          · rw [e2]
            simp only [trainPattern, List.getD_cons_succ]
            exact h2
          · rw [e3]
            simp only [trainPattern, List.getD_cons_succ]
            exact h3

/-- Each batch index contributes exactly one `optimizer.step()` call to the
training pattern. -/
theorem trainPattern_count_optStep (n : ℕ) :
    ∀ i j, (trainPattern i n).count (Event.optStep j) =
      if i ≤ j ∧ j < i + n then 1 else 0 := by
  induction n with
  | zero =>
      intro i j
      rw [if_neg (by omega)]
      rfl
  | succ n ih =>
      intro i j
      simp [trainPattern, List.count_cons, ih (i + 1) j]
      split_ifs <;> omega

/-- Each batch index contributes exactly one `model.reset_grad()` call to
the training pattern. -/
theorem trainPattern_count_resetGrad (n : ℕ) :
    ∀ i j, (trainPattern i n).count (Event.resetGrad j) =
      if i ≤ j ∧ j < i + n then 1 else 0 := by
  induction n with
  | zero =>
      intro i j
      rw [if_neg (by omega)]
      rfl
  | succ n ih =>
      intro i j
      simp [trainPattern, List.count_cons, ih (i + 1) j]
      split_ifs <;> omega

/-- C1: the calls issued by one `train(epoch)` invocation follow exactly the
pattern `forward 0, optStep 0, resetGrad 0, forward 1, …`: for every batch
`k`, the forward/backward pass sits at trace position `3k`, strictly before
`optimizer.step()` at position `3k+1`, which is strictly before
`model.reset_grad()` at position `3k+2`, which is strictly before the next
batch's forward pass at position `3(k+1)`; and each batch contributes
exactly one `optimizer.step()` and exactly one `model.reset_grad()`, so
`reset_grad` happens exactly once between consecutive optimizer steps. -/
theorem trainCallOrdering (rt : Runtime) (env : Env) (st : ModuleState) :
    (train rt env st).trace = trainPattern 0 env.train_loader.length ∧
      (train rt env st).trace.length = 3 * env.train_loader.length ∧
      (∀ k, k < env.train_loader.length →
        (train rt env st).trace.getD (3 * k) Event.metricCompute =
            Event.forward k ∧
          (train rt env st).trace.getD (3 * k + 1) Event.metricCompute =
            Event.optStep k ∧
          (train rt env st).trace.getD (3 * k + 2) Event.metricCompute =
            Event.resetGrad k) ∧
      (∀ k, (train rt env st).trace.count (Event.optStep k) =
        if k < env.train_loader.length then 1 else 0) ∧
      (∀ k, (train rt env st).trace.count (Event.resetGrad k) =
        if k < env.train_loader.length then 1 else 0) := by
  have htr : (train rt env st).trace =
      trainPattern 0 env.train_loader.length :=
    trainLoop_trace rt env.train_loader _ 0
  refine ⟨htr, ?_, ?_, ?_, ?_⟩
  · rw [htr]
    exact trainPattern_length _ 0
  · intro k hk
    obtain ⟨h1, h2, h3⟩ := trainPattern_getD env.train_loader.length 0 k hk
    rw [Nat.zero_add] at h1 h2 h3
    rw [htr]
    exact ⟨h1, h2, h3⟩
  · intro k
    rw [htr, trainPattern_count_optStep]
    by_cases hk : k < env.train_loader.length
    · rw [if_pos (by omega), if_pos hk]
    · rw [if_neg (by omega), if_neg hk]
  · intro k
    rw [htr, trainPattern_count_resetGrad]
    by_cases hk : k < env.train_loader.length
    · rw [if_pos (by omega), if_pos hk]
    · rw [if_neg (by omega), if_neg hk]

theorem trainCallOrdering_witness :
    (train rtEx envEx stEx).trace = trainPattern 0 envEx.train_loader.length :=
  (trainCallOrdering rtEx envEx stEx).1

/-- In eval mode, the test loop never changes the module state. -/
theorem testLoop_state (rt : Runtime) (bs : List Batch) :
    ∀ (st : ModuleState) (i : ℕ), st.mode = Mode.eval →
      (testLoop rt st i bs).1 = st := by
  induction bs with
  | nil => intro st i _; rfl
  | cons b bs ih =>
      intro st i h
      obtain ⟨p, g, m⟩ := st
      cases m with
      | train => exact absurd h (by simp)
      | eval =>
          show (testLoop rt _ (i + 1) bs).1 = _
          exact ih _ _ rfl

/-- The test loop emits exactly the per-batch forward/metricAdd pattern. -/
theorem testLoop_trace (rt : Runtime) (bs : List Batch) :
    ∀ (st : ModuleState) (i : ℕ),
      (testLoop rt st i bs).2.2.2 = testPattern i bs.length := by
  induction bs with
  | nil => intro st i; rfl
  | cons b bs ih => intro st i; simp [testLoop, testPattern, ih]

/-- The evaluation pattern contains no `optimizer.step()` call. -/
theorem testPattern_no_optStep (n : ℕ) :
    ∀ i, (testPattern i n).countP (fun e => e.isOptStep) = 0 := by
  induction n with
  | zero => intro i; rfl
  | succ n ih =>
      intro i
      simp only [testPattern, List.countP_cons, ih (i + 1)]
      rfl

/-- The evaluation pattern contains no `model.reset_grad()` call. -/
theorem testPattern_no_resetGrad (n : ℕ) :
    ∀ i, (testPattern i n).countP (fun e => e.isResetGrad) = 0 := by
  induction n with
  | zero => intro i; rfl
  | succ n ih =>
      intro i
      simp only [testPattern, List.countP_cons, ih (i + 1)]
      rfl

/-- The evaluation pattern contains one forward call per batch. -/
theorem testPattern_count_forward (n : ℕ) :
    ∀ i, (testPattern i n).countP (fun e => e.isForward) = n := by
  induction n with
  | zero => intro i; rfl
  | succ n ih =>
      intro i
      simp only [testPattern, List.countP_cons, ih (i + 1)]
      rfl

/-- The loop body never finalizes the metric. -/
theorem testPattern_no_metricCompute (n : ℕ) :
    ∀ i, Event.metricCompute ∉ testPattern i n := by
  induction n with
  | zero => intro i; simp [testPattern]
  | succ n ih => intro i; simp [testPattern, ih]

/-- C4: the evaluation loop only invokes the forward-only entry point — its
trace has one forward call per batch and no `optimizer.step()` and no
`model.reset_grad()` call — so the checkpoint parameters and the gradient
buffer are left unchanged by the entire loop; the per-batch results are
routed into the metric aggregator, which is finalized exactly once per
epoch. -/
theorem testLoopFrameEffect (rt : Runtime) (env : Env) (st : ModuleState) :
    (test rt env st).state.params = st.params ∧
      (test rt env st).state.grads = st.grads ∧
      (test rt env st).trace.countP (fun e => e.isOptStep) = 0 ∧
      (test rt env st).trace.countP (fun e => e.isResetGrad) = 0 ∧
      (test rt env st).trace.countP (fun e => e.isForward) =
        env.train_loader.length ∧
      (test rt env st).trace.count Event.metricCompute = 1 ∧
      (test rt env st).losses.length = env.train_loader.length ∧
      (test rt env st).metrics =
        accuracyCompute env.train_loader.length (test rt env st).pairs := by
  have hst : (testLoop rt { st with mode := Mode.eval } 0 env.train_loader).1 =
      { st with mode := Mode.eval } :=
    testLoop_state rt env.train_loader _ 0 rfl
  have htr : (test rt env st).trace =
      testPattern 0 env.train_loader.length ++ [Event.metricCompute] := by
    show (testLoop rt { st with mode := Mode.eval } 0 env.train_loader).2.2.2
        ++ [Event.metricCompute] = _
    rw [testLoop_trace]
  refine ⟨?_, ?_, ?_, ?_, ?_, ?_, ?_, ?_⟩
  · show (testLoop rt { st with mode := Mode.eval } 0
        env.train_loader).1.params = st.params
    rw [hst]
  · show (testLoop rt { st with mode := Mode.eval } 0
        env.train_loader).1.grads = st.grads
    rw [hst]
  · rw [htr, List.countP_append, testPattern_no_optStep]
    rfl
  · rw [htr, List.countP_append, testPattern_no_resetGrad]
    rfl
  · rw [htr, List.countP_append, testPattern_count_forward]
    rfl
  · rw [htr, List.count_append]
    rw [List.count_eq_zero.mpr (testPattern_no_metricCompute _ 0)]
    rfl
  · exact testLoop_losses_length rt env.train_loader _ 0
  · rfl

/-- Invariant of the `np.argmax` scan: the final best pair is either the
initial one or indexes into the scanned list, its value dominates the
initial value and every scanned element. -/
theorem argmaxAux_spec (xs : List ℚ) :
    ∀ (i : ℕ) (best : ℕ × ℚ),
      (argmaxAux xs i best = best ∨
        ∃ j, j < xs.length ∧ (argmaxAux xs i best).1 = i + j ∧
          (argmaxAux xs i best).2 = xs.getD j 0) ∧
      best.2 ≤ (argmaxAux xs i best).2 ∧
      ∀ x ∈ xs, x ≤ (argmaxAux xs i best).2 := by
  induction xs with
  | nil =>
      intro i best
      exact ⟨Or.inl rfl, le_refl _, by simp⟩
  | cons x xs ih =>
      intro i best
      have he : argmaxAux (x :: xs) i best =
          argmaxAux xs (i + 1) (if best.2 < x then (i, x) else best) := rfl
      obtain ⟨hA, hB, hC⟩ := ih (i + 1) (if best.2 < x then (i, x) else best)
      have hbb : best.2 ≤ (if best.2 < x then ((i, x) : ℕ × ℚ) else best).2 := by
        by_cases hlt : best.2 < x
        · rw [if_pos hlt]
          exact le_of_lt hlt
        · rw [if_neg hlt]
      have hxb : x ≤ (if best.2 < x then ((i, x) : ℕ × ℚ) else best).2 := by
        by_cases hlt : best.2 < x
        · rw [if_pos hlt]
        · rw [if_neg hlt]
          exact le_of_not_lt hlt
      refine ⟨?_, ?_, ?_⟩
      · rw [he]
        rcases hA with hA | ⟨j, hj, h1, h2⟩
        · by_cases hlt : best.2 < x
          · right
            refine ⟨0, by simp, ?_, ?_⟩
            · rw [hA, if_pos hlt]
              rfl
            · rw [hA, if_pos hlt]
              rfl
          · left
            rw [hA, if_neg hlt]
        · right
          refine ⟨j + 1, by simpa using hj, ?_, ?_⟩
          · rw [h1]
            omega
          · rw [h2, List.getD_cons_succ]
      · rw [he]
        exact le_trans hbb hB
      · rw [he]
        intro y hy
        rcases List.mem_cons.mp hy with hy | hy
        · rw [hy]
          exact le_trans hxb hB
        · exact hC y hy

/-- `np.argmax` of a nonempty row is a valid index whose value dominates
every entry of the row. -/
theorem np_argmax_row_spec (xs : List ℚ) (h : xs ≠ []) :
    np_argmax_row xs < xs.length ∧
      ∀ j, j < xs.length →
        xs.getD j 0 ≤ xs.getD (np_argmax_row xs) 0 := by
  cases xs with
  | nil => exact absurd rfl h
  | cons x tl =>
      obtain ⟨hA, hB, hC⟩ := argmaxAux_spec tl 1 (0, x)
      have hr : np_argmax_row (x :: tl) = (argmaxAux tl 1 (0, x)).1 := rfl
      have hval : (x :: tl).getD (argmaxAux tl 1 (0, x)).1 0 =
          (argmaxAux tl 1 (0, x)).2 := by
        rcases hA with hA | ⟨j, hj, h1, h2⟩
        · rw [hA]
          rfl
        · rw [h1, h2]
          have e1 : 1 + j = j + 1 := by omega
          rw [e1, List.getD_cons_succ]
      have hlt : (argmaxAux tl 1 (0, x)).1 < (x :: tl).length := by
        rcases hA with hA | ⟨j, hj, h1, h2⟩
        · rw [hA]
          simp
        · rw [h1]
          simp
          omega
      refine ⟨by rw [hr]; exact hlt, ?_⟩
      intro j hj
      rw [hr, hval]
      cases j with
      | zero => exact hB
      | succ j =>
          have hjl : j < tl.length := by simpa using hj
          rw [List.getD_cons_succ]
          have hmem : tl.getD j 0 ∈ tl := by
            rw [List.getD_eq_getElem tl 0 hjl]
            exact List.getElem_mem hjl
          exact hC _ hmem

/-- C8: `get_pred` is a stateless transform of its input 2-D array: it has
one entry per row, and for every row the returned entry is an in-bounds
index at which the row attains a value no smaller than any of its
entries (the argmax along axis 1). -/
theorem getPredArgmax (logits : List (List ℚ)) (i : ℕ)
    (h1 : i < logits.length) (h2 : logits.getD i [] ≠ []) :
    (get_pred logits).length = logits.length ∧
      (get_pred logits).getD i 0 < (logits.getD i []).length ∧
      ∀ j, j < (logits.getD i []).length →
        (logits.getD i []).getD j 0 ≤
          (logits.getD i []).getD ((get_pred logits).getD i 0) 0 := by
  have h1m : i < (get_pred logits).length := by
    rw [get_pred, List.length_map]
    exact h1
  have hg : (get_pred logits).getD i 0 = np_argmax_row (logits.getD i []) := by
    simp only [get_pred]
    rw [List.getD_eq_getElem (List.map np_argmax_row logits) 0
      (by rw [List.length_map]; exact h1)]
    rw [List.getElem_map, List.getD_eq_getElem logits [] h1]
  obtain ⟨hlt, hmax⟩ := np_argmax_row_spec (logits.getD i []) h2
  refine ⟨by rw [get_pred, List.length_map], ?_, ?_⟩
  · rw [hg]
    exact hlt
  · intro j hj
    rw [hg]
    exact hmax j hj

/-- A concrete logits array for the `get_pred` witness. -/
def logitsEx : List (List ℚ) := [[1, 3, 2], [5, 4]]

theorem getPredArgmax_witness :
    (0 < logitsEx.length ∧ logitsEx.getD 0 [] ≠ []) ∧
      ((get_pred logitsEx).length = logitsEx.length ∧
        (get_pred logitsEx).getD 0 0 < (logitsEx.getD 0 []).length ∧
        ∀ j, j < (logitsEx.getD 0 []).length →
          (logitsEx.getD 0 []).getD j 0 ≤
            (logitsEx.getD 0 []).getD ((get_pred logitsEx).getD 0 0) 0) :=
  ⟨⟨by simp [logitsEx], by simp [logitsEx]⟩,
    getPredArgmax logitsEx 0 (by simp [logitsEx]) (by simp [logitsEx])⟩

/-- C6: when the test loader offers an example, the inference stage is a
one-shot operation: the deployment graph is materialized naming exactly
`"output-0"`, and the stage returns the raw values of one forward pass of
the exported network on the single reshaped input row, passed through the
argmax (`get_pred`). -/
theorem inferenceOneShot (rt : Runtime) (st : ModuleState) (env : Env)
    (b : Batch) (bs : List Batch) (row : List ℚ) (rows : List (List ℚ))
    (h1 : env.test_loader = b :: bs) (h2 : b.data = row :: rows) :
    (export_model_for_inferencing st ["output-0"]).outputNames =
        ["output-0"] ∧
      inferenceStage rt st env =
        some (get_pred (rt.inferFn st.params [row])) := by
  refine ⟨rfl, ?_⟩
  simp [inferenceStage, inferenceExample, InferenceSession.run,
    export_model_for_inferencing, h1, h2]

theorem inferenceOneShot_witness :
    (export_model_for_inferencing stEx ["output-0"]).outputNames =
        ["output-0"] ∧
      inferenceStage rtEx stEx envEx =
        some (get_pred (rtEx.inferFn stEx.params [[1, 2]])) :=
  inferenceOneShot rtEx stEx envEx batchEx [] [1, 2] [] rfl rfl

/-- C7: running the exported inference graph accepts exactly the declared
output name(s): a declared name yields the forward-pass output, an
undeclared name yields a lookup error. -/
theorem sessionRunOutputNames (rt : Runtime) (g : InferenceGraph)
    (input : List (List ℚ)) (name : String) :
    (name ∈ g.outputNames →
      InferenceSession.run rt { graph := g } [name] input =
        Except.ok [rt.inferFn g.params input]) ∧
    (name ∉ g.outputNames →
      InferenceSession.run rt { graph := g } [name] input =
        Except.error "InvalidArgument: invalid output name") := by
  constructor
  · intro h
    rw [InferenceSession.run, if_pos]
    · rfl
    · simp [List.contains, List.elem_iff, h]
  · intro h
    rw [InferenceSession.run, if_neg]
    intro hc
    simp [List.contains, List.elem_iff] at hc
    exact h hc

/-- A concrete exported graph for the session-run witness. -/
def gEx : InferenceGraph := { outputNames := ["output-0"], params := 7 }

theorem sessionRunOutputNames_witness :
    InferenceSession.run rtEx { graph := gEx } ["output-0"] [[1]] =
        Except.ok [rtEx.inferFn gEx.params [[1]]] ∧
      InferenceSession.run rtEx { graph := gEx } ["bogus"] [[1]] =
        Except.error "InvalidArgument: invalid output name" :=
  ⟨(sessionRunOutputNames rtEx gEx [[1]] "output-0").1 (by simp [gEx]),
    (sessionRunOutputNames rtEx gEx [[1]] "bogus").2 (by simp [gEx])⟩

/-- Forward events emitted by the fallible loop carry indices at least the
starting index. -/
theorem trainLoopE_forward_ge (rt : RuntimeF) (bs : List Batch) :
    ∀ (st : ModuleState) (i j : ℕ),
      Event.forward j ∈ (trainLoopE rt st i bs).2 → i ≤ j := by
  induction bs with
  | nil =>
      intro st i j h
      simp [trainLoopE] at h
  | cons b bs ih =>
      intro st i j h
      obtain ⟨p, g, m⟩ := st
      cases hr : rt.runE p b with
      | error e =>
          simp only [trainLoopE, hr] at h
          simp at h
          omega
      | ok r =>
          cases hs : rt.stepE p (rt.gradFn g p b) with
          | error e =>
              simp only [trainLoopE, hr, hs] at h
              simp at h
              omega
          | ok q =>
              simp only [trainLoopE, hr, hs] at h
              simp at h
              rcases h with h | h
              · omega
              · have := ih _ (i + 1) j h
                omega

/-- No batch index is attempted twice by the fallible loop: each forward
event appears at most once in the trace. -/
theorem trainLoopE_forward_once (rt : RuntimeF) (bs : List Batch) :
    ∀ (st : ModuleState) (i j : ℕ),
      ((trainLoopE rt st i bs).2).count (Event.forward j) ≤ 1 := by
  induction bs with
  | nil =>
      intro st i j
      simp [trainLoopE]
  | cons b bs ih =>
      intro st i j
      obtain ⟨p, g, m⟩ := st
      cases hr : rt.runE p b with
      | error e =>
          simp only [trainLoopE, hr]
          simp [List.count_cons]
          split_ifs <;> omega
      | ok r =>
          cases hs : rt.stepE p (rt.gradFn g p b) with
          | error e =>
              simp only [trainLoopE, hr, hs]
              simp [List.count_cons]
              split_ifs <;> omega
          | ok q =>
              simp only [trainLoopE, hr, hs]
              simp [List.count_cons]
              by_cases hj : j = i
              · subst hj
                have hnm : Event.forward j ∉
                    (trainLoopE rt
                      { params := q, grads := 0, mode := m } (j + 1) bs).2 := by
                  intro hm
                  have := trainLoopE_forward_ge rt bs _ (j + 1) j hm
                  omega
                rw [List.count_eq_zero.mpr hnm]
                simp
              · have := ih { params := q, grads := 0, mode := m } (i + 1) j
                split_ifs <;> omega

/-- If the fallible loop processes a prefix of batches without error, the
loop over an extended batch list first replays that prefix exactly and then
continues from the reached state, with the traces concatenated and the
prefix losses prepended. -/
theorem trainLoopE_ok_append (rt : RuntimeF) (bs1 : List Batch) :
    ∀ (st st1 : ModuleState) (i : ℕ) (lo : List ℚ) (rest : List Batch),
      (trainLoopE rt st i bs1).1 = Except.ok (st1, lo) →
      trainLoopE rt st i (bs1 ++ rest) =
        ((trainLoopE rt st1 (i + bs1.length) rest).1.map
            (fun q => (q.1, lo ++ q.2)),
          (trainLoopE rt st i bs1).2 ++
            (trainLoopE rt st1 (i + bs1.length) rest).2) := by
  induction bs1 with
  | nil =>
      intro st st1 i lo rest h
      simp [trainLoopE] at h
      obtain ⟨h1, h2⟩ := h
      subst h1
      subst h2
      show trainLoopE rt st i rest = _
      refine Prod.ext ?_ ?_
      · show (trainLoopE rt st i rest).1 =
          ((trainLoopE rt st (i + 0) rest).1.map (fun q => (q.1, [] ++ q.2)))
        cases hres : (trainLoopE rt st i rest).1 with
        | error e =>
            show _ = Except.map _ (trainLoopE rt st (i + 0) rest).1
            rw [Nat.add_zero, hres]
            rfl
        | ok v =>
            show _ = Except.map _ (trainLoopE rt st (i + 0) rest).1
            rw [Nat.add_zero, hres]
            simp [Except.map]
      · show (trainLoopE rt st i rest).2 =
          [] ++ (trainLoopE rt st (i + 0) rest).2
        rw [Nat.add_zero, List.nil_append]
  | cons b bs1 ihp =>
      intro st st1 i lo rest h
      obtain ⟨p, g, m⟩ := st
      cases hr : rt.runE p b with
      | error e =>
          simp only [trainLoopE, hr] at h
          simp at h
      | ok r =>
          cases hs : rt.stepE p (rt.gradFn g p b) with
          | error e =>
              simp only [trainLoopE, hr, hs] at h
              simp at h
          | ok q =>
              simp only [trainLoopE, hr, hs] at h
              rw [List.cons_append]
              simp only [trainLoopE, hr, hs]
              cases hres : (trainLoopE rt
                  { params := q, grads := 0, mode := m } (i + 1) bs1).1 with
              | error e =>
                  rw [hres] at h
                  simp [Except.map] at h
              | ok v =>
                  obtain ⟨vst, vlo⟩ := v
                  rw [hres] at h
                  simp [Except.map] at h
                  obtain ⟨hv1, hv2⟩ := h
                  subst hv1
                  subst hv2
                  have hrec := ihp { params := q, grads := 0, mode := m }
                    vst (i + 1) vlo rest (by rw [hres])
                  rw [hrec]
                  have hlen : i + 1 + bs1.length = i + (b :: bs1).length := by
                    simp only [List.length_cons]
                    omega
                  rw [hlen]
                  refine Prod.ext ?_ ?_
                  · cases hrr : (trainLoopE rt vst (i + (b :: bs1).length)
                        rest).1 with
                    | error e => simp [Except.map]
                    | ok w => simp [Except.map]
                  · simp

/-- C9: a runtime-collaborator error during a batch aborts the current epoch
and propagates synchronously to the caller, with no retry: no batch's
forward pass is ever attempted twice, and when the first failing call is the
forward/backward pass (resp. the optimizer step) of some batch, the loop's
result is exactly that error and its trace ends at that very call — the
remaining batches contribute nothing. -/
theorem runtimeErrorAbortsEpoch (rt : RuntimeF) (st st1 : ModuleState)
    (bs1 bs2 : List Batch) (b : Batch) (lo : List ℚ)
    (h : (trainLoopE rt st 0 bs1).1 = Except.ok (st1, lo)) :
    (∀ j, ((trainLoopE rt st 0 (bs1 ++ b :: bs2)).2).count
        (Event.forward j) ≤ 1) ∧
      (∀ e, rt.runE st1.params b = Except.error e →
        trainLoopE rt st 0 (bs1 ++ b :: bs2) =
          (Except.error e,
            (trainLoopE rt st 0 bs1).2 ++ [Event.forward bs1.length])) ∧
      (∀ e r, rt.runE st1.params b = Except.ok r →
        rt.stepE st1.params (rt.gradFn st1.grads st1.params b) =
          Except.error e →
        trainLoopE rt st 0 (bs1 ++ b :: bs2) =
          (Except.error e,
            (trainLoopE rt st 0 bs1).2 ++
              [Event.forward bs1.length, Event.optStep bs1.length])) := by
  refine ⟨fun j => trainLoopE_forward_once rt _ st 0 j, ?_, ?_⟩
  · intro e he
    rw [trainLoopE_ok_append rt bs1 st st1 0 lo (b :: bs2) h]
    obtain ⟨p, g, m⟩ := st1
    simp only [trainLoopE, he]
    simp [Except.map]
  · intro e r hok hstep
    rw [trainLoopE_ok_append rt bs1 st st1 0 lo (b :: bs2) h]
    obtain ⟨p, g, m⟩ := st1
    simp only [trainLoopE, hok, hstep]
    simp [Except.map]

/-- A concrete starting state for the failing-runtime witness. -/
def st0Ex : ModuleState := { params := 0, grads := 0, mode := Mode.train }

theorem runtimeErrorAbortsEpoch_witness :
    trainLoopE rtFEx st0Ex 0 ([batchEx] ++ batchEx :: [batchEx]) =
      (Except.error RTError.runtimeExecutionFailure,
        (trainLoopE rtFEx st0Ex 0 [batchEx]).2 ++ [Event.forward 1]) :=
  ((runtimeErrorAbortsEpoch rtFEx st0Ex
      { params := 1, grads := 0, mode := Mode.train } [batchEx] [batchEx]
      batchEx [0] rfl).2.1) RTError.runtimeExecutionFailure rfl
